import Mathlib

/-!
Verification development for the lxml-maintenance core: the Schematron
validation adapter (src/lxml/schematron.pxi) and the read-only element
proxy / Python class lookup layer (src/lxml/lxml.pyclasslookup.pyx).

The native libxml2 collaborator is modelled abstractly: its return codes
and allocation successes are inputs, and the native calls the adapter
makes (resource acquisition and release) are recorded as an event trace.
-/

namespace Schematron

/-- Behaviour of the native libxml2 calls made during one validation call:
whether xmlSchematronNewValidCtxt returns a context, and the int result of
xmlSchematronValidateDoc. -/
structure ValidateNative where
  newValidCtxtOk : Bool
  validateRet : Int
deriving DecidableEq, Repr

/-- The native/resource calls `Schematron.__call__` makes, in order, as an
event trace (connect/disconnect are the error-log connection). -/
inductive CallEvent where
  | connect
  | newValidCtxt
  | fakeRootDoc
  | validateDoc
  | destroyFakeDoc
  | freeValidCtxt
  | disconnect
deriving DecidableEq, Repr

/-- Outcome of `Schematron.__call__`: a boolean verdict, the
SchematronValidateError raised on an internal evaluation error, or the
SchematronError raised when the validation context cannot be created. -/
inductive CallOutcome where
  | ok (valid : Bool)
  | validateError
  | ctxtError
deriving DecidableEq, Repr

/-- `Schematron.__call__` (schematron.pxi lines 116-156): connect the error
log, create the validation context (disconnect and raise on failure), build
the fake-root document view, run xmlSchematronValidateDoc, destroy the fake
doc, free the context, disconnect the log, then map the return code:
-1 raises SchematronValidateError, 0 returns True, anything else False. -/
def schematronCall (n : ValidateNative) : CallOutcome × List CallEvent :=
  let evs : List CallEvent := [CallEvent.connect]
  if n.newValidCtxtOk = false then
    (CallOutcome.ctxtError, evs ++ [CallEvent.disconnect])
  else
    let evs := evs ++ [CallEvent.newValidCtxt, CallEvent.fakeRootDoc,
      CallEvent.validateDoc, CallEvent.destroyFakeDoc,
      CallEvent.freeValidCtxt, CallEvent.disconnect]
    if n.validateRet = -1 then
      (CallOutcome.validateError, evs)
    else if n.validateRet = 0 then
      (CallOutcome.ok true, evs)
    else
      (CallOutcome.ok false, evs)

/-- Behaviour of the native calls made during `Schematron.__init__`:
whether each parser-context allocation succeeds and whether
xmlSchematronParse yields a schema. -/
structure ParseNative where
  docParserCtxtOk : Bool
  fileParserCtxtOk : Bool
  parseOk : Bool
deriving DecidableEq, Repr

/-- Native calls made by `Schematron.__init__`, as an event trace. -/
inductive InitEvent where
  | copyDocRoot
  | newDocParserCtxt
  | newFileParserCtxt
  | parse
  | freeParserCtxt
deriving DecidableEq, Repr

/-- Outcome of `Schematron.__init__`. -/
inductive InitOutcome where
  | ok
  | configError
  | parseErrorNoSource
  | parseErrorInvalid
  | noMemory
deriving DecidableEq, Repr

/-- `Schematron.__init__` (schematron.pxi lines 76-111): raise
SchematronError if Schematron support is disabled; if an etree document is
given, copy its root subtree and allocate a doc parser context; otherwise
if a file is given, allocate a file parser context; otherwise raise
SchematronParseError "No tree or file given".  A NULL parser context is an
out-of-memory error.  Then parse, free the parser context unconditionally,
and raise SchematronParseError if no schema was produced.
`hasEtree` and `hasFile` model `etree is not None` / `file is not None`. -/
def schematronInit (enable hasEtree hasFile : Bool) (n : ParseNative) :
    InitOutcome × List InitEvent :=
  if enable = false then
    (InitOutcome.configError, [])
  else if hasEtree then
    let evs := [InitEvent.copyDocRoot, InitEvent.newDocParserCtxt]
    if n.docParserCtxtOk = false then
      (InitOutcome.noMemory, evs)
    else
      let evs := evs ++ [InitEvent.parse, InitEvent.freeParserCtxt]
      if n.parseOk then (InitOutcome.ok, evs)
      else (InitOutcome.parseErrorInvalid, evs)
  else if hasFile then
    let evs := [InitEvent.newFileParserCtxt]
    if n.fileParserCtxtOk = false then
      (InitOutcome.noMemory, evs)
    else
      let evs := evs ++ [InitEvent.parse, InitEvent.freeParserCtxt]
      if n.parseOk then (InitOutcome.ok, evs)
      else (InitOutcome.parseErrorInvalid, evs)
  else
    (InitOutcome.parseErrorNoSource, [])

end Schematron

namespace Proxy

/-- An attribute key. Modelled from the spec: namespace-qualified attribute
keys take either the bare-name form or the namespace-qualified form that
wraps the namespace URI in braces before the local name; we represent keys
structurally as an optional namespace URI plus a local name (the pair that
cetree.getNsTag extracts, and the shape in which qualified keys are
rendered). -/
structure QName where
  ns : Option String
  name : String
deriving DecidableEq, Repr

/-- A native libxml2 node as the proxy layer sees it.  Nodes live in a
document arena and are referred to by index, modelling xmlNode pointers;
`isElem` models tree._isElement; `children` are in document order; `tag`
holds the qualified name that cetree.namespacedName renders. -/
structure NativeNode where
  isElem : Bool
  tag : String
  textContent : Option String
  tailText : Option String
  nsPref : Option String
  line : Int
  attrs : List (QName × String)
  parent : Option Nat
  children : List Nat
deriving DecidableEq, Repr

instance : Inhabited NativeNode :=
  ⟨⟨false, "", none, none, none, 0, [], none, []⟩⟩

/-- The document arena holding the native nodes. -/
structure NDoc where
  nodes : List NativeNode
deriving DecidableEq, Repr

def NDoc.node (d : NDoc) (p : Nat) : NativeNode := d.nodes.getD p default

/-- How a proxy operation can fail: the assertion in
_ElementProxy._assertNode (message "Proxy invalidated!"), a dereference of
a NULL node pointer inside native helper code (undefined behaviour in the
real program, modelled as an explicit distinguished outcome), or a Python
IndexError. -/
inductive Failure where
  | assertFail
  | nullDeref
  | indexError
deriving DecidableEq, Repr

/-- The read-only _ElementProxy: its xmlNode pointer, which is NULL (none)
once the owning proxy graph has been invalidated.  The registry bookkeeping
fields _source_proxy and _dependent_proxies are modelled separately by the
ProxyPass state; accessors that would build child proxies return the
underlying node pointers instead. -/
structure ElementProxy where
  c_node : Option Nat
deriving DecidableEq, Repr

/-- _ElementProxy._assertNode: fail if the proxy was invalidated; returns
the non-NULL pointer for use by the caller. -/
def ElementProxy.assertNode (self : ElementProxy) : Except Failure Nat :=
  match self.c_node with
  | none => Except.error Failure.assertFail
  | some p => Except.ok p

/-- Property `tag`: asserts validity, then cetree.namespacedName. -/
def ElementProxy.tag (d : NDoc) (self : ElementProxy) : Except Failure String := do
  let p ← self.assertNode
  return (d.node p).tag

/-- Property `text`: asserts validity, then cetree.textOf. -/
def ElementProxy.text (d : NDoc) (self : ElementProxy) :
    Except Failure (Option String) := do
  let p ← self.assertNode
  return (d.node p).textContent

/-- Property `tail`: asserts validity, then cetree.tailOf. -/
def ElementProxy.tail (d : NDoc) (self : ElementProxy) :
    Except Failure (Option String) := do
  let p ← self.assertNode
  return (d.node p).tailText

/-- Property for the namespace prefix: asserts validity, then returns the
node's namespace prefix or None. -/
def ElementProxy.nsPref (d : NDoc) (self : ElementProxy) :
    Except Failure (Option String) := do
  let p ← self.assertNode
  return (d.node p).nsPref

/-- Property `sourceline`: asserts validity, then xmlGetLineNo; positive
line numbers are returned, anything else is None. -/
def ElementProxy.sourceline (d : NDoc) (self : ElementProxy) :
    Except Failure (Option Int) := do
  let p ← self.assertNode
  let line := (d.node p).line
  return if 0 < line then some line else none

/-- Modelled from the spec: cetree.findChildForwards walks the child chain,
counting only element nodes, and returns the index-th element child or NULL
when out of range. -/
def findChildForwards (d : NDoc) : List Nat → Nat → Option Nat
  | [], _ => none
  | c :: rest, i =>
    if (d.node c).isElem then
      if i = 0 then some c else findChildForwards d rest (i - 1)
    else findChildForwards d rest i

/-- Modelled from the spec: cetree.findChildBackwards counts element
children from the last child backwards. -/
def findChildBackwards (d : NDoc) (cs : List Nat) (i : Nat) : Option Nat :=
  findChildForwards d cs.reverse i

/-- Modelled from the spec: cetree.findChild dispatches on the sign of the
index (non-negative indices count forwards, negative ones backwards from
the end).  It immediately reads the children field of its node argument, so
calling it with a NULL node pointer dereferences NULL. -/
def findChild (d : NDoc) (p : Option Nat) (index : Int) :
    Except Failure (Option Nat) :=
  match p with
  | none => Except.error Failure.nullDeref
  | some p =>
    if 0 ≤ index then
      Except.ok (findChildForwards d (d.node p).children index.toNat)
    else
      Except.ok (findChildBackwards d (d.node p).children (-index - 1).toNat)

/-- The element-type children of a node, in document order. -/
def elemChildren (d : NDoc) (p : Nat) : List Nat :=
  (d.node p).children.filter (fun c => (d.node c).isElem)

/-- `__getitem__`: no validity assertion in the source — the raw pointer
goes straight into cetree.findChild; a NULL result raises IndexError,
otherwise a fresh proxy is made for the found child (modelled by returning
its pointer). -/
def ElementProxy.getitem (d : NDoc) (self : ElementProxy) (index : Int) :
    Except Failure Nat := do
  match ← findChild d self.c_node index with
  | none => Except.error Failure.indexError
  | some c => return c

/-- Modelled from the spec: the chain of a node and its following siblings
(next pointers), derived from the parent's child list. -/
def siblingsFrom (d : NDoc) (c : Nat) : List Nat :=
  match (d.node c).parent with
  | none => [c]
  | some par => (d.node par).children.dropWhile (fun x => decide (x ≠ c))

/-- `__getslice__`: no validity assertion in the source — cetree.findChild
is called on the raw pointer with the start index; from the found child the
next-sibling chain is walked, appending element nodes and counting them,
while the counter stays below stop. -/
def ElementProxy.getslice (d : NDoc) (self : ElementProxy)
    (start stop : Int) : Except Failure (List Nat) := do
  match ← findChild d self.c_node start with
  | none => return []
  | some c0 => return go (siblingsFrom d c0) start
where
  go : List Nat → Int → List Nat
    | [], _ => []
    | c :: rest, cnt =>
      if cnt < stop then
        if (d.node c).isElem then c :: go rest (cnt + 1) else go rest cnt
      else []

/-- `__len__`: asserts validity, then counts the element-type children. -/
def ElementProxy.lengthOf (d : NDoc) (self : ElementProxy) :
    Except Failure Nat := do
  let p ← self.assertNode
  return (elemChildren d p).length

/-- `__nonzero__`: asserts validity, then checks for a last element child
via cetree.findChildBackwards. -/
def ElementProxy.nonzero (d : NDoc) (self : ElementProxy) :
    Except Failure Bool := do
  let p ← self.assertNode
  return (findChildBackwards d (d.node p).children 0).isSome

/-- `getchildren`: asserts validity, then collects every element-type child
in document order (each wrapped in a fresh proxy, modelled by pointers). -/
def ElementProxy.getchildren (d : NDoc) (self : ElementProxy) :
    Except Failure (List Nat) := do
  let p ← self.assertNode
  return elemChildren d p

/-- `__iter__`: iterates over getchildren. -/
def ElementProxy.iterAcc (d : NDoc) (self : ElementProxy) :
    Except Failure (List Nat) :=
  self.getchildren d

/-- `iterchildren`: getchildren, then an optional exact tag filter and an
optional reversal of the materialized list. -/
def ElementProxy.iterchildren (d : NDoc) (self : ElementProxy)
    (tagFilter : Option String) (rev : Bool) : Except Failure (List Nat) := do
  let children ← self.getchildren d
  let children :=
    match tagFilter with
    | some t => children.filter (fun c => decide ((d.node c).tag = t))
    | none => children
  return if rev then children.reverse else children

/-- Modelled from the spec: cetree.attributeValueFromNsName — the
underlying tree's namespace-aware attribute lookup by
(namespace-or-none, local name). -/
def attributeValueFromNsName (d : NDoc) (p : Nat) (q : QName) :
    Option String :=
  ((d.node p).attrs.find? (fun a => decide (a.1 = q))).map (fun a => a.2)

/-- Modelled from the spec: cetree.getNsTag splits a qualified key into its
optional namespace URI and local name; on the structural QName
representation it is the identity decomposition. -/
def getNsTag (q : QName) : Option String × String := (q.ns, q.name)

/-- _getAttributeValue: split the key with getNsTag, look it up with the
namespace-aware native lookup, and substitute the default when absent. -/
def getAttributeValue (d : NDoc) (p : Nat) (key : QName)
    (dflt : Option String) : Option String :=
  let nsTag := getNsTag key
  match attributeValueFromNsName d p ⟨nsTag.1, nsTag.2⟩ with
  | none => dflt
  | some v => some v

/-- Modelled from the spec: cetree.collectAttributes with mode 1 collects
the attribute keys in storage order. -/
def collectAttributesKeys (d : NDoc) (p : Nat) : List QName :=
  (d.node p).attrs.map (fun a => a.1)

/-- Modelled from the spec: cetree.collectAttributes with mode 2 collects
the attribute values in storage order. -/
def collectAttributesValues (d : NDoc) (p : Nat) : List String :=
  (d.node p).attrs.map (fun a => a.2)

/-- Modelled from the spec: cetree.collectAttributes with mode 3 collects
the (key, value) pairs in storage order. -/
def collectAttributesItems (d : NDoc) (p : Nat) : List (QName × String) :=
  (d.node p).attrs

/-- `get`: asserts validity, then _getAttributeValue. -/
def ElementProxy.get (d : NDoc) (self : ElementProxy) (key : QName)
    (dflt : Option String) : Except Failure (Option String) := do
  let p ← self.assertNode
  return getAttributeValue d p key dflt

/-- `keys`: asserts validity, then collectAttributes mode 1. -/
def ElementProxy.keys (d : NDoc) (self : ElementProxy) :
    Except Failure (List QName) := do
  let p ← self.assertNode
  return collectAttributesKeys d p

/-- `values`: asserts validity, then collectAttributes mode 2. -/
def ElementProxy.values (d : NDoc) (self : ElementProxy) :
    Except Failure (List String) := do
  let p ← self.assertNode
  return collectAttributesValues d p

/-- `items`: asserts validity, then collectAttributes mode 3. -/
def ElementProxy.items (d : NDoc) (self : ElementProxy) :
    Except Failure (List (QName × String)) := do
  let p ← self.assertNode
  return collectAttributesItems d p

/-- Property `attrib`: asserts validity, then a dict built from
collectAttributes mode 3 (modelled as the pair list). -/
def ElementProxy.attrib (d : NDoc) (self : ElementProxy) :
    Except Failure (List (QName × String)) := do
  let p ← self.assertNode
  return collectAttributesItems d p

/-- Modelled from the spec: cetree.nextElement — the nearest following
sibling that is an element, or NULL. -/
def nextElement (d : NDoc) (c : Nat) : Option Nat :=
  ((siblingsFrom d c).drop 1).find? (fun x => (d.node x).isElem)

/-- Modelled from the spec: cetree.previousElement — the nearest preceding
sibling that is an element, or NULL. -/
def previousElement (d : NDoc) (c : Nat) : Option Nat :=
  match (d.node c).parent with
  | none => none
  | some par =>
    (((d.node par).children.takeWhile (fun x => decide (x ≠ c))).reverse).find?
      (fun x => (d.node x).isElem)

/-- `getparent`: asserts validity; None for a missing or non-element
parent, otherwise a fresh proxy on the parent (modelled by its pointer). -/
def ElementProxy.getparent (d : NDoc) (self : ElementProxy) :
    Except Failure (Option Nat) := do
  let p ← self.assertNode
  match (d.node p).parent with
  | none => return none
  | some par => return if (d.node par).isElem then some par else none

/-- `getnext`: asserts validity, then cetree.nextElement. -/
def ElementProxy.getnext (d : NDoc) (self : ElementProxy) :
    Except Failure (Option Nat) := do
  let p ← self.assertNode
  return nextElement d p

/-- `getprevious`: asserts validity, then cetree.previousElement. -/
def ElementProxy.getprevious (d : NDoc) (self : ElementProxy) :
    Except Failure (Option Nat) := do
  let p ← self.assertNode
  return previousElement d p

/-- The native document of the spec's example: a root whose children are
[e0, c1(text), e2]; pointers: 0 = root, 1 = e0, 2 = c1, 3 = e2. -/
def exDoc : NDoc :=
  ⟨[⟨true, "root", none, none, none, 1, [], none, [1, 2, 3]⟩,
    ⟨true, "e0", none, none, none, 2, [], some 0, []⟩,
    ⟨false, "c1", some "text", none, none, 3, [], some 0, []⟩,
    ⟨true, "e2", none, none, none, 4, [], some 0, []⟩]⟩

/-- A one-element document carrying two attributes, one bare and one
namespace-qualified. -/
def attrDoc : NDoc :=
  ⟨[⟨true, "a", none, none, none, 1,
     [(⟨none, "id"⟩, "x"), (⟨some "urn:ns", "k"⟩, "y")], none, []⟩]⟩

end Proxy

namespace Pass

/-- The per-proxy bookkeeping state of one classification pass: the node
pointer (NULL after invalidation), the _source_proxy reference (as a proxy
index), and the _dependent_proxies registry (None on proxies for which
tp_new never had it filled in; only the root gets a list). -/
structure ProxyRec where
  c_node : Option Nat
  source : Nat
  deps : Option (List Nat)
deriving DecidableEq, Repr

instance : Inhabited ProxyRec := ⟨⟨none, 0, none⟩⟩

/-- The proxies spawned so far in one classification pass, in creation
order; proxy indices index into this list. -/
abbrev PassState := List ProxyRec

/-- _newProxy with sourceProxy None: the root proxy is its own source and
starts the registry containing itself. -/
def newRootProxy (c : Nat) : PassState :=
  [⟨some c, 0, some [0]⟩]

/-- _newProxy with a non-None source: the call sites all pass
self._source_proxy, so the new proxy's source is the source of the proxy
`parent` it was spawned from, and the new proxy is appended to that source
proxy's _dependent_proxies registry. -/
def newProxyFrom (s : PassState) (parent : Nat) (c : Nat) : PassState :=
  let src := (List.getD s parent default).source
  let idx := List.length s
  let grown := s ++ [⟨some c, src, none⟩]
  match (List.getD grown src default).deps with
  | none => grown
  | some ds =>
    List.set grown src
      { List.getD grown src default with deps := some (ds ++ [idx]) }

/-- The loop of _freeProxies: null out the node pointer of every proxy in
the registry, in registry order. -/
def nullRegistered (s : PassState) (ds : List Nat) : PassState :=
  ds.foldl
    (fun acc i =>
      List.set acc i { List.getD acc i default with c_node := none })
    s

/-- _freeProxies on the proxy at index `root`: walk its registry nulling
every registered proxy's node pointer, then clear the registry. -/
def freeProxies (s : PassState) (root : Nat) : PassState :=
  match (List.getD s root default).deps with
  | none => s
  | some ds =>
    let cleared := nullRegistered s ds
    List.set cleared root
      { List.getD cleared root default with deps := some [] }

/-- A classification pass spawns proxies one traversal call at a time; each
step names the proxy whose traversal method ran and the native node the new
proxy wraps. -/
def applySpawns (s : PassState) (steps : List (Nat × Nat)) : PassState :=
  steps.foldl (fun acc st => newProxyFrom acc st.1 st.2) s

/-- What the user-supplied lookup callback does: it may spawn proxies
(recorded as traversal steps against the pass state) and then either return
an optional class override or raise an exception. -/
inductive CbResult where
  | ret (cls : Option Nat)
  | exc
deriving DecidableEq, Repr

/-- A user lookup callback: from the pass state holding the fresh root
proxy, the proxies it spawned and its result. -/
def Callback := PassState → CbResult × PassState

/-- _lookup_class (lxml.pyclasslookup.pyx lines 325-336): make a fresh root
proxy over the node, run the user's lookup, free the proxies, and return
the override class or else delegate to cetree.callLookupFallback.  An
exception from the callback propagates out at the point of the call, before
_freeProxies runs.  Returns the outcome (class or propagated exception) and
the final pass state. -/
def lookupClass (cb : Callback) (fallback : Nat → Nat) (c_node : Nat) :
    Except Unit Nat × PassState :=
  let s0 := newRootProxy c_node
  match cb s0 with
  | (CbResult.exc, s1) => (Except.error (), s1)
  | (CbResult.ret cls, s1) =>
    let s2 := freeProxies s1 0
    match cls with
    | some k => (Except.ok k, s2)
    | none => (Except.ok (fallback c_node), s2)

/-- Modelled from the spec: with no classification hook installed the
configured fallback lookup mechanism alone classifies the node. -/
def noHookClassify (fallback : Nat → Nat) (c_node : Nat) : Nat :=
  fallback c_node

/-- The pass invariant: the root proxy sits at index 0, every proxy's
_source_proxy reference is the root, and the root's registry lists exactly
the indices of every proxy spawned so far, in creation order. -/
def Inv (s : PassState) : Prop :=
  s ≠ [] ∧
  (∀ r ∈ s, r.source = 0) ∧
  (List.getD s 0 default).deps = some (List.range s.length)

end Pass

namespace Schematron

theorem schematronCall_events (n : ValidateNative) :
    (schematronCall n).2 =
      if n.newValidCtxtOk then
        [CallEvent.connect, CallEvent.newValidCtxt, CallEvent.fakeRootDoc,
         CallEvent.validateDoc, CallEvent.destroyFakeDoc,
         CallEvent.freeValidCtxt, CallEvent.disconnect]
      else [CallEvent.connect, CallEvent.disconnect] := by
  obtain ⟨ok, ret⟩ := n
  cases ok
  · rfl
  · by_cases h1 : ret = -1
    · subst h1; rfl
    · by_cases h0 : ret = 0
      · subst h0; rfl
      · simp [schematronCall, h1, h0]

/-- C1 counterexample: with a validation context and native return code -2
(a negative code other than -1), `Schematron.__call__` returns False
instead of raising SchematronValidateError, refuting the claim that every
negative return code raises a ValidationError. -/
theorem schematron_call_negative_two_returns_false :
    (schematronCall ⟨true, -2⟩).1 = CallOutcome.ok false ∧
    (schematronCall ⟨true, -2⟩).1 ≠ CallOutcome.validateError := by
  constructor
  · rfl
  · decide

/-- C1 (amended): for every validation call on a compiled schema that
obtains a validation context, `Schematron.__call__` raises
SchematronValidateError exactly when the native evaluation returns -1,
returns True exactly when it returns 0, and returns False for every other
return code, positive or negative. -/
theorem schematron_call_return_code_mapping (ret : Int) :
    ((schematronCall ⟨true, ret⟩).1 = CallOutcome.validateError ↔ ret = -1) ∧
    ((schematronCall ⟨true, ret⟩).1 = CallOutcome.ok true ↔ ret = 0) ∧
    ((schematronCall ⟨true, ret⟩).1 = CallOutcome.ok false ↔
      (ret ≠ -1 ∧ ret ≠ 0)) := by
  by_cases h1 : ret = -1
  · subst h1; decide
  · by_cases h0 : ret = 0
    · subst h0; decide
    · simp [schematronCall, h1, h0]

/-- C4: on every exit path of `Schematron.__call__` — normal return,
failure to create the validation context, and the internal-error result —
the error-log connection ends disconnected (disconnect is the last native
event), and whenever the validation context was created it is freed and
the fake-root document view is destroyed before the call returns or
raises. -/
theorem schematron_call_releases_resources (n : ValidateNative) :
    ((schematronCall n).2.getLast? = some CallEvent.disconnect) ∧
    (CallEvent.newValidCtxt ∈ (schematronCall n).2 →
      CallEvent.freeValidCtxt ∈ (schematronCall n).2) ∧
    (CallEvent.fakeRootDoc ∈ (schematronCall n).2 →
      CallEvent.destroyFakeDoc ∈ (schematronCall n).2) := by
  rw [schematronCall_events]
  cases h : n.newValidCtxtOk <;> simp

/-- Witness for C4 at the internal-error input: the context is created and
evaluation returns -1; the trace still ends in disconnect, frees the
context and destroys the fake doc. -/
theorem schematron_call_releases_resources_witness :
    (schematronCall ⟨true, -1⟩).2.getLast? = some CallEvent.disconnect ∧
    CallEvent.freeValidCtxt ∈ (schematronCall ⟨true, -1⟩).2 ∧
    CallEvent.destroyFakeDoc ∈ (schematronCall ⟨true, -1⟩).2 :=
  ⟨(schematron_call_releases_resources ⟨true, -1⟩).1,
   (schematron_call_releases_resources ⟨true, -1⟩).2.1 (by decide),
   (schematron_call_releases_resources ⟨true, -1⟩).2.2 (by decide)⟩

/-- C8: when both an in-memory document and a file are supplied to
`Schematron.__init__`, the outcome and native-call trace are identical to
supplying the document alone — the document takes priority, the file
parser context is never created, and no error is raised for supplying
both. -/
theorem schematron_init_document_precedence (enable : Bool)
    (n : ParseNative) :
    schematronInit enable true true n = schematronInit enable true false n ∧
    InitEvent.newFileParserCtxt ∉ (schematronInit enable true true n).2 := by
  obtain ⟨dOk, fOk, pOk⟩ := n
  cases enable <;> cases dOk <;> cases fOk <;> cases pOk <;> decide

/-- C9: compiling a Schematron with neither an in-memory document nor a
file supplied always fails with SchematronParseError, with an empty native
trace: no parser context is allocated first. -/
theorem schematron_init_no_source_parse_error (n : ParseNative) :
    schematronInit true false false n = (InitOutcome.parseErrorNoSource, []) := by
  rfl

end Schematron

namespace Pass

theorem getD_set_ne {α : Type} (l : List α) (i j : Nat) (a dflt : α)
    (h : i ≠ j) : (l.set i a).getD j dflt = l.getD j dflt := by
  simp [List.getD_eq_getD_get?, List.get?_eq_getElem?, List.getElem?_set_ne h]

theorem getD_set_self {α : Type} (l : List α) (i : Nat) (a dflt : α)
    (h : i < l.length) : (l.set i a).getD i dflt = a := by
  simp [List.getD_eq_getD_get?, List.get?_eq_getElem?,
    List.getElem?_set_self h]

theorem nullRegistered_cons (s : PassState) (d : Nat) (rest : List Nat) :
    nullRegistered s (d :: rest) =
      nullRegistered
        (List.set s d { List.getD s d default with c_node := none }) rest :=
  rfl

theorem length_nullRegistered (ds : List Nat) (s : PassState) :
    (nullRegistered s ds).length = s.length := by
  induction ds generalizing s with
  | nil => rfl
  | cons d rest ih => rw [nullRegistered_cons, ih, List.length_set]

theorem nullRegistered_getD_of_not_mem (ds : List Nat) (s : PassState)
    (i : Nat) (h : i ∉ ds) :
    List.getD (nullRegistered s ds) i default = List.getD s i default := by
  induction ds generalizing s with
  | nil => rfl
  | cons d rest ih =>
    have hdi : d ≠ i := fun he => h (he ▸ List.mem_cons_self d rest)
    have hrest : i ∉ rest := fun hm => h (List.mem_cons_of_mem d hm)
    rw [nullRegistered_cons, ih _ hrest, getD_set_ne _ _ _ _ _ hdi]

theorem nullRegistered_c_node_of_mem (ds : List Nat) (s : PassState)
    (i : Nat) (hlen : i < s.length) (hmem : i ∈ ds) :
    (List.getD (nullRegistered s ds) i default).c_node = none := by
  induction ds generalizing s with
  | nil => cases hmem
  | cons d rest ih =>
    rw [nullRegistered_cons]
    by_cases hr : i ∈ rest
    · exact ih _ (by simpa using hlen) hr
    · have hid : i = d := by
        rcases List.mem_cons.mp hmem with h | h
        · exact h
        · exact absurd h hr
      subst hid
      rw [nullRegistered_getD_of_not_mem _ _ _ hr,
        getD_set_self _ _ _ _ hlen]

end Pass

namespace Pass

theorem inv_newRootProxy (c : Nat) : Inv (newRootProxy c) := by
  refine ⟨by simp [newRootProxy], ?_, ?_⟩
  · intro r hr
    simp only [newRootProxy, List.mem_singleton] at hr
    rw [hr]
  · rfl

theorem newProxyFrom_eq {s : PassState} {parent : Nat} (hne : s ≠ [])
    (hsrc0 : (List.getD s parent default).source = 0)
    (ds : List Nat)
    (hdeps : (List.getD s 0 default).deps = some ds) (c : Nat) :
    newProxyFrom s parent c =
      List.set (s ++ [⟨some c, 0, none⟩]) 0
        { List.getD s 0 default with deps := some (ds ++ [s.length]) } := by
  have hlen : 0 < s.length := List.length_pos.mpr hne
  simp only [newProxyFrom, hsrc0]
  rw [List.getD_append _ _ _ _ hlen, hdeps]

theorem inv_newProxyFrom {s : PassState} (h : Inv s) (parent c : Nat) :
    Inv (newProxyFrom s parent c) := by
  obtain ⟨hne, hsrc, hdeps⟩ := h
  have hlen : 0 < s.length := List.length_pos.mpr hne
  have hmem0 : List.getD s 0 default ∈ s := by
    rw [List.getD_eq_getElem s default hlen]
    exact List.getElem_mem hlen
  have hsrc0 : (List.getD s parent default).source = 0 := by
    by_cases hp : parent < s.length
    · rw [List.getD_eq_getElem s default hp]
      exact hsrc _ (List.getElem_mem hp)
    · rw [List.getD_eq_default s default (Nat.le_of_not_lt hp)]
      rfl
  rw [newProxyFrom_eq hne hsrc0 _ hdeps c]
  have hlenapp : (s ++ [(⟨some c, 0, none⟩ : ProxyRec)]).length
      = s.length + 1 := by
    simp
  refine ⟨?_, ?_, ?_⟩
  · apply List.ne_nil_of_length_pos
    rw [List.length_set, hlenapp]
    exact Nat.succ_pos _
  · intro r hr
    rcases List.mem_or_eq_of_mem_set hr with hr' | hr'
    · rcases List.mem_append.mp hr' with hs' | hs'
      · exact hsrc _ hs'
      · rw [List.mem_singleton.mp hs']
    · rw [hr']
      show (List.getD s 0 default).source = 0
      exact hsrc _ hmem0
  · rw [getD_set_self _ _ _ _ (by rw [hlenapp]; exact Nat.succ_pos _),
      List.length_set, hlenapp]
    simp [List.range_succ]

theorem inv_applySpawns (c : Nat) (steps : List (Nat × Nat)) :
    Inv (applySpawns (newRootProxy c) steps) := by
  have h : ∀ (st : List (Nat × Nat)) (s : PassState), Inv s →
      Inv (applySpawns s st) := by
    intro st
    induction st with
    | nil => intro s hs; exact hs
    | cons a rest ih =>
      intro s hs
      exact ih _ (inv_newProxyFrom hs a.1 a.2)
  exact h steps _ (inv_newRootProxy c)

theorem freeProxies_nulls {s : PassState}
    (hdeps : (List.getD s 0 default).deps = some (List.range s.length)) :
    ∀ i < s.length,
      (List.getD (freeProxies s 0) i default).c_node = none := by
  intro i hi
  have hlen0 : 0 < s.length := Nat.lt_of_le_of_lt (Nat.zero_le i) hi
  simp only [freeProxies, hdeps]
  by_cases h0 : i = 0
  · subst h0
    rw [getD_set_self _ _ _ _ (by rw [length_nullRegistered]; exact hlen0)]
    exact nullRegistered_c_node_of_mem _ _ _ hlen0 (List.mem_range.mpr hlen0)
  · rw [getD_set_ne _ _ _ _ _ (fun he => h0 he.symm)]
    exact nullRegistered_c_node_of_mem _ _ _ hi (List.mem_range.mpr hi)

end Pass

namespace Pass

/-- C10: every proxy created during a classification pass — the root
included, which registers in its own registry — is recorded in the root
proxy's dependent-proxy registry at creation time: after any sequence of
traversal spawns the registry lists exactly the indices of all spawned
proxies, and graph teardown therefore nulls the native-node reference of
every proxy of the pass, with none escaping invalidation. -/
theorem pass_registry_complete (c : Nat) (steps : List (Nat × Nat)) :
    (List.getD (applySpawns (newRootProxy c) steps) 0 default).deps =
      some (List.range (applySpawns (newRootProxy c) steps).length) ∧
    ∀ i < (applySpawns (newRootProxy c) steps).length,
      (List.getD (freeProxies (applySpawns (newRootProxy c) steps) 0) i
        default).c_node = none := by
  have hinv := inv_applySpawns c steps
  exact ⟨hinv.2.2, freeProxies_nulls hinv.2.2⟩

/-- Witness for C10: a pass on node 5 that spawns one child proxy on node
7; the registry is [0, 1] = range 2 and teardown nulls proxy 1's node
reference. -/
theorem pass_registry_complete_witness :
    (List.getD (applySpawns (newRootProxy 5) [(0, 7)]) 0 default).deps =
      some (List.range (applySpawns (newRootProxy 5) [(0, 7)]).length) ∧
    (List.getD (freeProxies (applySpawns (newRootProxy 5) [(0, 7)]) 0) 1
      default).c_node = none :=
  ⟨(pass_registry_complete 5 [(0, 7)]).1,
   (pass_registry_complete 5 [(0, 7)]).2 1 (by decide)⟩

/-- C3 (code bug): _lookup_class runs the user callback with no
try/finally, so a lookup callback that spawns a child proxy and then
raises leaves every proxy of the pass with a live native-node pointer when
the exception propagates — the graph is not torn down on the error path —
whereas the same spawning callback returning normally has the whole graph
invalidated. -/
theorem lookup_class_exception_skips_teardown :
    (lookupClass (fun s => (CbResult.exc, newProxyFrom s 0 7))
        (fun _ => 0) 5).1 = Except.error () ∧
    (lookupClass (fun s => (CbResult.exc, newProxyFrom s 0 7))
        (fun _ => 0) 5).2 =
      [⟨some 5, 0, some [0, 1]⟩, ⟨some 7, 0, none⟩] ∧
    (lookupClass (fun s => (CbResult.ret none, newProxyFrom s 0 7))
        (fun _ => 0) 5).2 =
      [⟨none, 0, some []⟩, ⟨none, 0, none⟩] := by
  refine ⟨rfl, ?_, ?_⟩ <;> decide

/-- C5: when the installed hook's lookup returns None, _lookup_class
produces exactly the classification that the configured fallback lookup
mechanism alone yields for the same node, so a hook returning None
everywhere classifies identically to having no hook installed. -/
theorem lookup_none_delegates_to_fallback (cb : Callback)
    (fallback : Nat → Nat) (c : Nat)
    (h : (cb (newRootProxy c)).1 = CbResult.ret none) :
    (lookupClass cb fallback c).1 = Except.ok (noHookClassify fallback c) := by
  have hcb : cb (newRootProxy c)
      = (CbResult.ret none, (cb (newRootProxy c)).2) := by
    rw [← h]
  simp only [lookupClass]
  rw [hcb]
  rfl

/-- Witness for C5: the do-nothing callback that returns None delegates to
the fallback on node 5. -/
theorem lookup_none_delegates_to_fallback_witness :
    (lookupClass (fun s => (CbResult.ret none, s)) (fun n => n + 1) 5).1 =
      Except.ok (noHookClassify (fun n => n + 1) 5) :=
  lookup_none_delegates_to_fallback _ _ 5 rfl

end Pass

namespace Proxy

/-- C2 (code bug): after graph teardown nulls a proxy's native-node
reference, every accessor that calls _assertNode deterministically fails
with the assertion, but __getitem__ and __getslice__ never call
_assertNode: they pass the NULL pointer straight to cetree.findChild,
which dereferences it — indexed child access and slicing hit undefined
behaviour instead of the claimed deterministic assertion-style failure. -/
theorem invalidated_proxy_accessors (d : NDoc) (i a b : Int) (key : QName)
    (dflt : Option String) (tf : Option String) (rev : Bool) :
    ElementProxy.tag d ⟨none⟩ = Except.error Failure.assertFail ∧
    ElementProxy.text d ⟨none⟩ = Except.error Failure.assertFail ∧
    ElementProxy.tail d ⟨none⟩ = Except.error Failure.assertFail ∧
    ElementProxy.attrib d ⟨none⟩ = Except.error Failure.assertFail ∧
    ElementProxy.nsPref d ⟨none⟩ = Except.error Failure.assertFail ∧
    ElementProxy.sourceline d ⟨none⟩ = Except.error Failure.assertFail ∧
    ElementProxy.lengthOf d ⟨none⟩ = Except.error Failure.assertFail ∧
    ElementProxy.nonzero d ⟨none⟩ = Except.error Failure.assertFail ∧
    ElementProxy.iterAcc d ⟨none⟩ = Except.error Failure.assertFail ∧
    ElementProxy.iterchildren d ⟨none⟩ tf rev
      = Except.error Failure.assertFail ∧
    ElementProxy.getchildren d ⟨none⟩ = Except.error Failure.assertFail ∧
    ElementProxy.get d ⟨none⟩ key dflt = Except.error Failure.assertFail ∧
    ElementProxy.keys d ⟨none⟩ = Except.error Failure.assertFail ∧
    ElementProxy.values d ⟨none⟩ = Except.error Failure.assertFail ∧
    ElementProxy.items d ⟨none⟩ = Except.error Failure.assertFail ∧
    ElementProxy.getparent d ⟨none⟩ = Except.error Failure.assertFail ∧
    ElementProxy.getnext d ⟨none⟩ = Except.error Failure.assertFail ∧
    ElementProxy.getprevious d ⟨none⟩ = Except.error Failure.assertFail ∧
    ElementProxy.getitem d ⟨none⟩ i = Except.error Failure.nullDeref ∧
    ElementProxy.getslice d ⟨none⟩ a b = Except.error Failure.nullDeref ∧
    ElementProxy.getitem d ⟨none⟩ i ≠ Except.error Failure.assertFail := by
  refine ⟨rfl, rfl, rfl, rfl, rfl, rfl, rfl, rfl, rfl, rfl, rfl, rfl, rfl,
    rfl, rfl, rfl, rfl, rfl, rfl, rfl, ?_⟩
  intro hcontra
  exact Failure.noConfusion (Except.error.inj hcontra)

theorem findChildForwards_eq_get? (d : NDoc) (cs : List Nat) (i : Nat) :
    findChildForwards d cs i =
      (cs.filter (fun c => (d.node c).isElem))[i]? := by
  induction cs generalizing i with
  | nil => simp [findChildForwards]
  | cons c rest ih =>
    by_cases hc : (d.node c).isElem = true
    · cases i with
      | zero => simp [findChildForwards, hc]
      | succ j => simp [findChildForwards, hc, ih]
    · simp [findChildForwards, hc, ih]

/-- C6: on a valid proxy, indexed child access with a non-negative index
returns the index-th element-type child, skipping non-element siblings,
and raises IndexError exactly when the index is at or beyond the count of
element children. -/
theorem getitem_nth_element_child (d : NDoc) (p : Nat) (i : Int)
    (h : 0 ≤ i) :
    ElementProxy.getitem d ⟨some p⟩ i =
      match (elemChildren d p)[i.toNat]? with
      | some c => Except.ok c
      | none => Except.error Failure.indexError := by
  have hf : findChild d (some p) i =
      Except.ok (findChildForwards d (d.node p).children i.toNat) := by
    simp [findChild, h]
  simp only [ElementProxy.getitem, hf, findChildForwards_eq_get?,
    elemChildren]
  cases ((d.node p).children.filter (fun c => (d.node c).isElem))[i.toNat]? <;>
    rfl

/-- Witness for C6 on the spec's example: index 0 yields e0, index 1 skips
the text child and yields e2, index 2 raises IndexError. -/
theorem getitem_nth_element_child_witness :
    ElementProxy.getitem exDoc ⟨some 0⟩ 0 = Except.ok 1 ∧
    ElementProxy.getitem exDoc ⟨some 0⟩ 1 = Except.ok 3 ∧
    ElementProxy.getitem exDoc ⟨some 0⟩ 2
      = Except.error Failure.indexError := by
  refine ⟨?_, ?_, ?_⟩
  · rw [getitem_nth_element_child exDoc 0 0 (by decide)]; rfl
  · rw [getitem_nth_element_child exDoc 0 1 (by decide)]; rfl
  · rw [getitem_nth_element_child exDoc 0 2 (by decide)]; rfl

theorem find?_attrs_of_nodup {attrs : List (QName × String)}
    {kv : QName × String}
    (hnd : (attrs.map (fun a => a.1)).Nodup) (hmem : kv ∈ attrs) :
    attrs.find? (fun a => decide (a.1 = kv.1)) = some kv := by
  induction attrs with
  | nil => cases hmem
  | cons a rest ih =>
    rw [List.map_cons, List.nodup_cons] at hnd
    rcases List.mem_cons.mp hmem with h | h
    · subst h
      rw [List.find?_cons_of_pos _ (by simp)]
    · have hkey : kv.1 ∈ rest.map (fun x => x.1) := List.mem_map_of_mem _ h
      have hne : ¬(a.1 = kv.1) := fun he => hnd.1 (by rw [he]; exact hkey)
      rw [List.find?_cons_of_neg _ (by simpa using hne)]
      exact ih hnd.2 h

/-- C7: on a valid proxy, keys() lists exactly the keys of the items()
entries, values() lists exactly their values, and — the attribute keys of
a node being unique, as XML attribute storage guarantees — get(key)
returns the value of the corresponding items() entry for every entry. -/
theorem attr_accessors_consistent (d : NDoc) (p : Nat)
    (dflt : Option String)
    (hnd : (collectAttributesKeys d p).Nodup) :
    ElementProxy.keys d ⟨some p⟩ =
      Except.ok ((collectAttributesItems d p).map (fun a => a.1)) ∧
    ElementProxy.values d ⟨some p⟩ =
      Except.ok ((collectAttributesItems d p).map (fun a => a.2)) ∧
    ∀ kv ∈ collectAttributesItems d p,
      ElementProxy.get d ⟨some p⟩ kv.1 dflt = Except.ok (some kv.2) := by
  refine ⟨rfl, rfl, ?_⟩
  intro kv hmem
  have hval : attributeValueFromNsName d p kv.1 = some kv.2 := by
    unfold attributeValueFromNsName
    rw [find?_attrs_of_nodup hnd hmem]
    rfl
  show Except.ok (getAttributeValue d p kv.1 dflt) = Except.ok (some kv.2)
  simp only [getAttributeValue, getNsTag]
  rw [show (⟨kv.1.ns, kv.1.name⟩ : QName) = kv.1 from rfl, hval]

/-- Witness for C7 on attrDoc: the key list is nodup, and get returns the
items() value for the first entry. -/
theorem attr_accessors_consistent_witness :
    ElementProxy.keys attrDoc ⟨some 0⟩ =
      Except.ok ((collectAttributesItems attrDoc 0).map (fun a => a.1)) ∧
    ElementProxy.get attrDoc ⟨some 0⟩ ⟨none, "id"⟩ none
      = Except.ok (some "x") := by
  have h := attr_accessors_consistent attrDoc 0 none (by decide)
  exact ⟨h.1, h.2.2 (⟨none, "id"⟩, "x") (by decide)⟩

end Proxy
